import Mathlib

/-!
# Verification of the AutoLlama BM25S indexing service

Shallow embedding of `src/bm25-service/bm25_service.py` (the `BM25Manager`
class and the FastAPI endpoint handlers), together with a spec-modelled
scoring engine for the parts provided by the external `bm25s` library
(tokenizer and `retrieve`), which are not part of this repository's sources.

Modelling conventions:
* Python dictionaries keyed by strings become functions `String → Option α`.
* The filesystem is a single map from absolute path to file content; a file
  holds either a pickled retriever object or a JSON metadata document.
* Exceptions raised and caught inside an operation are reflected in the
  operation's result type; the wall clock and the outcome of fallible disk
  writes are passed in as explicit parameters.
* Python list indexing (`xs[i]`, which wraps around for negative `i` and
  raises `IndexError` otherwise) is embedded as `pyGet` returning `Option`.
-/

/-- A chunk as supplied by the caller (`ChunkData` pydantic model):
an id, the text, and an opaque key-value metadata mapping. -/
structure ChunkData where
  id : String
  text : String
  metadata : List (String × String)
deriving DecidableEq

/-- Modelled from the spec: the tokenizer (§4.1) is provided by the external
`bm25s` library, not by this repository's sources. Per the spec it lowercases
and splits on non-alphanumeric boundaries; empty/whitespace-only input yields
an empty sequence. `splitGroups` gathers maximal runs of alphanumeric
characters and drops the empty runs produced by separators. -/
def splitGroups (cs : List Char) : List (List Char) :=
  (cs.foldr
    (fun c acc =>
      if c.isAlphanum then
        match acc with
        | w :: ws => (c :: w) :: ws
        | [] => [[c]]
      else [] :: acc)
    []).filter (· ≠ [])

/-- Modelled from the spec: `tokenize(text) -> sequence of term` (§4.1),
lowercasing then splitting on non-alphanumeric boundaries. -/
def tokenize (s : String) : List String :=
  (splitGroups (s.data.map Char.toLower)).map fun w => String.mk w

/-- The BM25 index artifact: the trained retriever built from the tokenized
corpus (`bm25s.BM25(corpus=corpus_tokens)` followed by
`retriever.index(corpus_tokens)` in `create_index`). The engine's internal
statistics are all derived from the tokenized corpus, so the artifact is
represented by that corpus. -/
structure Artifact where
  corpusTokens : List (List String)
deriving DecidableEq

/-- The ranking order used by the scoring engine's `retrieve` (§4.2): pairs
`(doc_index, score)` ordered by descending score, ties broken by ascending
original document index. -/
def rankBefore (p q : Nat × Int) : Prop :=
  q.2 < p.2 ∨ (p.2 = q.2 ∧ p.1 ≤ q.1)

instance : DecidableRel rankBefore := fun p q => by
  unfold rankBefore; infer_instance

/-- Modelled from the spec: the scoring engine's retrieve contract (§4.2),
provided by the external `bm25s` library, not by this repository's sources:
`retrieve(query_tokens, k)` returns the top-`k` documents by descending
score, ties broken by ascending original document index, and `k` larger than
the corpus size returns all documents, not an error. The real-valued BM25
score (§4.2 uses a natural logarithm) is not exactly computable, so the
score assignment induced by the query is abstracted as the parameter
`score : Nat → Int`; every property proved below holds for every score
assignment, hence in particular for the BM25 one. -/
def Artifact.retrieve (a : Artifact) (score : Nat → Int) (k : Nat) :
    List (Nat × Int) :=
  (((List.range a.corpusTokens.length).map fun i => (i, score i)).insertionSort
    rankBefore).take k

/-- The index metadata document built in `create_index` (lines 99-106) and
persisted as JSON. `created_at` is the ISO timestamp string. -/
structure IndexMeta where
  filename : String
  chunk_count : Nat
  chunk_ids : List String
  chunk_metadata : List (List (String × String))
  created_at : String
  corpus_size : Nat
deriving DecidableEq

/-- Content of one file in the storage directory: either a pickled retriever
object (`pickle.dump(retriever, f)`) or a JSON metadata document
(`json.dump(metadata, f)`). -/
inductive DiskFile where
  | idxFile (a : Artifact)
  | metaFile (m : IndexMeta)
deriving DecidableEq

/-- The mutable state of the service: the manager's two in-memory maps
(`self.indices`, `self.metadata`, both keyed by collection name) and the
filesystem under the storage directory, keyed by absolute path. -/
structure BM25State where
  indices : String → Option Artifact
  metadata : String → Option IndexMeta
  fs : String → Option DiskFile

/-- The manager state at process start: both maps empty, no files. -/
def initState : BM25State :=
  { indices := fun _ => none, metadata := fun _ => none, fs := fun _ => none }

/-- Dictionary update `d[k] = v`. -/
def mapSet (f : String → Option α) (k : String) (v : α) : String → Option α :=
  fun x => if x = k then some v else f x

/-- Dictionary removal `del d[k]` (and file removal `os.remove(path)`). -/
def mapDel (f : String → Option α) (k : String) : String → Option α :=
  fun x => if x = k then none else f x

/-- The storage directory passed to `BM25Manager.__init__` (default
`/tmp/bm25_indices`). -/
def storagePath : String := "/tmp/bm25_indices"

/-- `_get_index_path`: sanitize the collection name by replacing each path
separator with an underscore (Python
`filename.replace("/", "_").replace("\\", "_")`, which for one-character
patterns is exactly character-wise replacement) and join with the storage
directory and the `.bm25` suffix. -/
def sanitize (s : String) : String :=
  String.mk (s.data.map fun c => if c = '/' ∨ c = '\\' then '_' else c)

/-- `_get_index_path(filename)`: path of the pickled index file. -/
def getIndexPath (filename : String) : String :=
  storagePath ++ "/" ++ sanitize filename ++ ".bm25"

/-- `_get_metadata_path(filename)`: path of the JSON metadata file. -/
def getMetadataPath (filename : String) : String :=
  storagePath ++ "/" ++ sanitize filename ++ ".meta"

/-- Outcome of the two sequential disk writes performed by
`_save_index_to_disk` (pickle dump of the retriever, then JSON dump of the
metadata). An exception can strike before the first write, between the two,
or not at all; the method catches it and only logs a warning. -/
inductive SaveOutcome where
  | ok
  | failBeforeIndex
  | failAfterIndex
deriving DecidableEq

/-- `_save_index_to_disk(filename, retriever, metadata)`: writes the pickled
retriever at the index path and the JSON metadata at the metadata path; any
exception is caught and logged, so the caller always continues normally.
The point at which an exception strikes is the `out` parameter. -/
def saveIndexToDisk (st : BM25State) (filename : String) (retriever : Artifact)
    (metadata : IndexMeta) (out : SaveOutcome) : BM25State :=
  match out with
  | .ok =>
      { st with
        fs := mapSet (mapSet st.fs (getIndexPath filename) (.idxFile retriever))
          (getMetadataPath filename) (.metaFile metadata) }
  | .failBeforeIndex => st
  | .failAfterIndex =>
      { st with fs := mapSet st.fs (getIndexPath filename) (.idxFile retriever) }

/-- `_load_index_from_disk(filename)`: if either the index path or the
metadata path is missing, return `False` without touching memory. Otherwise
unpickle the retriever and parse the metadata (a file of the wrong kind makes
the load raise, which is caught and returns `False`, still without touching
memory, since both in-memory assignments happen after both reads), store both
in memory and return `True`. No consistency check between the two documents
is performed. -/
def loadIndexFromDisk (st : BM25State) (filename : String) : BM25State × Bool :=
  match st.fs (getIndexPath filename), st.fs (getMetadataPath filename) with
  | some (.idxFile retriever), some (.metaFile metadata) =>
      ({ st with
          indices := mapSet st.indices filename retriever,
          metadata := mapSet st.metadata filename metadata }, true)
  | _, _ => (st, false)

/-- Result dictionary returned by `create_index`: either
`{"status": "exists", ...}` (line 69) or `{"status": "indexed", ...}`
(line 116). Only the fields the claims observe are kept. -/
structure CreateResult where
  status : String
  filename : String
  chunks : Nat
deriving DecidableEq

/-- `BM25Manager.create_index(chunks, filename, replace_existing)` (lines
62-127). If `replace_existing` is false and the collection name is present in
the *in-memory* `self.indices` map, return the `"exists"` result without any
mutation. Otherwise build the artifact from the chunk texts, store artifact
and metadata in memory, persist via `_save_index_to_disk` (whose failure is
swallowed there), and return the `"indexed"` result. `createdAt` is
`start_time.isoformat()`. -/
def create_index (st : BM25State) (chunks : List ChunkData) (filename : String)
    (replaceExisting : Bool) (createdAt : String) (out : SaveOutcome) :
    BM25State × CreateResult :=
  if ¬replaceExisting ∧ (st.indices filename).isSome then
    (st, { status := "exists", filename := filename, chunks := chunks.length })
  else
    let corpus := chunks.map (·.text)
    let chunk_ids := chunks.map (·.id)
    let chunk_metadata := chunks.map (·.metadata)
    let corpus_tokens := corpus.map tokenize
    let retriever : Artifact := { corpusTokens := corpus_tokens }
    let index_metadata : IndexMeta :=
      { filename := filename
        chunk_count := chunks.length
        chunk_ids := chunk_ids
        chunk_metadata := chunk_metadata
        created_at := createdAt
        corpus_size := corpus.length }
    let st1 : BM25State :=
      { st with
          indices := mapSet st.indices filename retriever,
          metadata := mapSet st.metadata filename index_metadata }
    let st2 := saveIndexToDisk st1 filename retriever index_metadata out
    (st2, { status := "indexed", filename := filename, chunks := chunks.length })

/-- One entry of the `results` list built by `search_index` (lines 152-157):
1-based rank, the chunk id and chunk metadata looked up positionally, and the
score (a float in the source, abstracted to the integer scores used by the
abstracted engine). -/
structure SearchHit where
  rank : Nat
  chunk_id : String
  score : Int
  metadata : List (String × String)
deriving DecidableEq

/-- Python list indexing `xs[i]`: a negative index counts from the end
(`xs[len(xs)+i]`); an index still out of range raises `IndexError`,
embedded as `none`. -/
def pyGet (l : List α) (i : Int) : Option α :=
  if 0 ≤ i then l.get? i.toNat
  else if 0 ≤ (l.length : Int) + i then l.get? ((l.length : Int) + i).toNat
  else none

/-- The result-formatting loop of `search_index` (lines 149-157): iterate over
the enumerated `(score, idx)` pairs; a pair whose `idx` fails the guard
`idx < len(metadata["chunk_ids"])` is skipped; otherwise a result entry with
rank `i + 1` is appended, looking up `chunk_ids[idx]` and
`chunk_metadata[idx]` with Python indexing — an `IndexError` there (possible
only for `idx < -len`) aborts the whole search, embedded as `none`. Each
element of `pairs` is `(i, score, idx)`. -/
def formatLoop (ids : List String) (metas : List (List (String × String))) :
    List (Nat × Int × Int) → Option (List SearchHit)
  | [] => some []
  | (i, score, idx) :: rest =>
      if idx < (ids.length : Int) then
        match pyGet ids idx, pyGet metas idx with
        | some cid, some cm =>
            (formatLoop ids metas rest).map fun tl =>
              { rank := i + 1, chunk_id := cid, score := score,
                metadata := cm } :: tl
        | _, _ => none
      else formatLoop ids metas rest

/-- Outcome of a `search_index` call: the success dictionary (line 159-165)
or an `HTTPException` with its status code and detail string. -/
inductive SearchOutcome where
  | success (query : String) (filename : String) (results : List SearchHit)
      (total_results : Nat)
  | httpError (statusCode : Nat) (detail : String)
deriving DecidableEq

/-- `BM25Manager.search_index(query, filename, top_k)` (lines 129-169). If the
collection is not in memory, attempt a lazy load from disk. If it is still
absent, the code raises `HTTPException(404, ...)` — but that raise sits inside
the method's own `try`, and `HTTPException` derives from `Exception`, so the
`except Exception` handler catches it and re-raises it as
`HTTPException(500, "Search failed: " + str(e))`, where `str` of the 404
renders as `404: <detail>`; the observable outcome is therefore a 500.
Otherwise tokenize the query, call the engine's retrieve, and format results
with `formatLoop`; an `IndexError` there is likewise converted to a 500 by
the same handler. The lookup `self.metadata[filename]` (line 140) raises
`KeyError` when the metadata map misses the name (Python renders the offending
key in the message; the exact text is immaterial here), again surfaced as a
500. `score` abstracts the engine's scoring of documents against a tokenized
query, as in `Artifact.retrieve`. -/
def search_index (st : BM25State) (query : String) (filename : String)
    (topK : Nat) (score : List String → Nat → Int) : BM25State × SearchOutcome :=
  let st1 :=
    if (st.indices filename).isNone then (loadIndexFromDisk st filename).1 else st
  match st1.indices filename with
  | none =>
      (st1, .httpError 500 ("Search failed: 404: Index not found for filename: "
        ++ filename))
  | some retriever =>
      match st1.metadata filename with
      | none => (st1, .httpError 500 ("Search failed: KeyError: " ++ filename))
      | some metadata =>
          let query_tokens := tokenize query
          let ranked := retriever.retrieve (score query_tokens) topK
          let zipped : List (Int × Int) :=
            ranked.map fun p => (p.2, (p.1 : Int))
          match formatLoop metadata.chunk_ids metadata.chunk_metadata
              (zipped.enum.map fun e => (e.1, e.2.1, e.2.2)) with
          | some results =>
              (st1, .success query filename results results.length)
          | none =>
              (st1, .httpError 500 ("Search failed: IndexError: " ++ filename))

/-- Result of the `delete_index` endpoint handler: always
`{"status": "deleted", "filename": filename}` (line 296); the handler's own
`except` branch is unreachable in this embedding because every step of the
body is total. -/
structure DeleteResult where
  status : String
  filename : String
deriving DecidableEq

/-- The DELETE endpoint handler `delete_index(filename)`
(lines 277-299): drop the in-memory index entry if present, drop the
in-memory metadata entry if present, remove each of the two storage files
that exists, and report `"deleted"`. -/
def delete_index (st : BM25State) (filename : String) :
    BM25State × DeleteResult :=
  let st1 :=
    { st with
        indices :=
          if (st.indices filename).isSome then mapDel st.indices filename
          else st.indices }
  let st2 :=
    { st1 with
        metadata :=
          if (st1.metadata filename).isSome then mapDel st1.metadata filename
          else st1.metadata }
  let ip := getIndexPath filename
  let mp := getMetadataPath filename
  let st3 :=
    { st2 with fs := if (st2.fs ip).isSome then mapDel st2.fs ip else st2.fs }
  let st4 :=
    { st3 with fs := if (st3.fs mp).isSome then mapDel st3.fs mp else st3.fs }
  (st4, { status := "deleted", filename := filename })

/-! ## Helper lemmas -/

theorem mapSet_same (f : String → Option α) (k : String) (v : α) :
    mapSet f k v k = some v := by
  simp [mapSet]

theorem saveIndexToDisk_indices (st : BM25State) (f : String) (a : Artifact)
    (m : IndexMeta) (out : SaveOutcome) :
    (saveIndexToDisk st f a m out).indices = st.indices := by
  cases out <;> rfl

theorem saveIndexToDisk_metadata (st : BM25State) (f : String) (a : Artifact)
    (m : IndexMeta) (out : SaveOutcome) :
    (saveIndexToDisk st f a m out).metadata = st.metadata := by
  cases out <;> rfl

theorem retrieve_length (a : Artifact) (score : Nat → Int) (k : Nat) :
    (a.retrieve score k).length = min k a.corpusTokens.length := by
  unfold Artifact.retrieve
  rw [List.length_take, List.length_insertionSort, List.length_map,
    List.length_range]

theorem retrieve_mem_lt (a : Artifact) (score : Nat → Int) (k : Nat) :
    ∀ p ∈ a.retrieve score k, p.1 < a.corpusTokens.length := by
  intro p hp
  unfold Artifact.retrieve at hp
  have h1 := List.mem_of_mem_take hp
  rw [List.mem_insertionSort] at h1
  obtain ⟨j, hj, he⟩ := List.mem_map.1 h1
  cases he
  exact List.mem_range.1 hj

theorem retrieve_all (a : Artifact) (score : Nat → Int) (k : Nat)
    (h : a.corpusTokens.length ≤ k) :
    ∀ i < a.corpusTokens.length, (i, score i) ∈ a.retrieve score k := by
  intro i hi
  unfold Artifact.retrieve
  rw [List.take_of_length_le
    (by rw [List.length_insertionSort, List.length_map, List.length_range]; exact h)]
  rw [List.mem_insertionSort]
  exact List.mem_map.2 ⟨i, List.mem_range.2 hi, rfl⟩

/-- A collection that exists only in memory, used to exercise the
`replace_existing` check. -/
def sampleArtifact : Artifact := { corpusTokens := [["hello"]] }

/-- Metadata matching `sampleArtifact`. -/
def sampleMeta : IndexMeta :=
  { filename := "doc", chunk_count := 1, chunk_ids := ["c1"],
    chunk_metadata := [[("k", "v")]], created_at := "t0", corpus_size := 1 }

/-- A state holding the collection `"doc"` in memory only. -/
def memState : BM25State :=
  { indices := mapSet initState.indices "doc" sampleArtifact,
    metadata := mapSet initState.metadata "doc" sampleMeta,
    fs := initState.fs }

/-- A state holding the collection `"doc2"` on disk only (persisted by an
earlier process run, never loaded into this one). -/
def diskState : BM25State :=
  { indices := fun _ => none, metadata := fun _ => none,
    fs := mapSet
      (mapSet (fun _ => none) (getIndexPath "doc2") (.idxFile sampleArtifact))
      (getMetadataPath "doc2")
      (.metaFile { sampleMeta with filename := "doc2" }) }

/-! ## Claims -/

/-- C1: searching a collection that was never created and has no persisted
artifact does NOT surface a distinguishable NotFound: the
`HTTPException(404)` raised at line 137 sits inside the method's own
`try`/`except Exception` (lines 131/167), which catches it and re-raises it
as a *500* whose detail merely embeds the 404 text. The failing input below
is the empty manager state with query `"cat"`, filename `"ghost"`,
`top_k = 10`; the outcome is a generic internal error, not NotFound. -/
theorem C1_missing_search_is_internal_error :
    (search_index initState "cat" "ghost" 10 fun _ _ => 0).2 =
      .httpError 500 "Search failed: 404: Index not found for filename: ghost" := by
  decide

/-- C2 (amended): `create_index` with `replace_existing = false` is an
idempotent no-op only when the collection name is present in the *in-memory*
`self.indices` map (line 68): it then returns the `"exists"` status and the
state — memory and disk — is left completely unchanged, so every subsequent
search returns the same results as before the call. -/
theorem C2_replace_false_inmemory_noop (st : BM25State) (chunks : List ChunkData)
    (filename createdAt : String) (out : SaveOutcome)
    (h : (st.indices filename).isSome) :
    create_index st chunks filename false createdAt out =
      (st, { status := "exists", filename := filename, chunks := chunks.length }) := by
  unfold create_index
  rw [if_pos ⟨by simp, h⟩]

/-- Witness for C2: on a state holding `"doc"` in memory, a
`replace_existing = false` create is a no-op. -/
theorem C2_replace_false_inmemory_noop_witness :
    create_index memState [⟨"c2", "bye", []⟩] "doc" false "t1" .ok =
      (memState, { status := "exists", filename := "doc", chunks := 1 }) :=
  C2_replace_false_inmemory_noop memState [⟨"c2", "bye", []⟩] "doc" "t1" .ok
    (by decide)

/-- Counterexample for C2 as stated: the collection `"doc2"` exists only in
persisted storage (not yet loaded in memory). A create with
`replace_existing = false` does not return `"exists"` — it proceeds, returns
`"indexed"`, and overwrites the stored metadata, so the stored artifact and
metadata are not left unchanged. -/
theorem C2_counterexample :
    (create_index diskState [⟨"c2", "new text", []⟩] "doc2" false "t1" .ok).2.status
        = "indexed" ∧
      (create_index diskState [⟨"c2", "new text", []⟩] "doc2" false "t1" .ok).1.fs
          (getMetadataPath "doc2") ≠
        diskState.fs (getMetadataPath "doc2") := by
  decide

theorem formatLoop_filter (ids : List String)
    (metas : List (List (String × String))) (pairs : List (Nat × Int × Int)) :
    formatLoop ids metas pairs =
      formatLoop ids metas
        (pairs.filter fun p => p.2.2 < (ids.length : Int)) := by
  induction pairs with
  | nil => rfl
  | cons p rest ih =>
    obtain ⟨i, s, idx⟩ := p
    by_cases hlt : idx < (ids.length : Int)
    · have hd : (decide (idx < (ids.length : Int))) = true := decide_eq_true hlt
      simp only [formatLoop, List.filter_cons, hd, if_pos hlt,
        eq_self_iff_true, if_true]
      rw [ih]
    · have hd : (decide (idx < (ids.length : Int))) = false := decide_eq_false hlt
      simp only [formatLoop, List.filter_cons, hd, if_neg hlt,
        Bool.false_eq_true, if_false]
      exact ih

theorem formatLoop_hits (ids : List String)
    (metas : List (List (String × String))) (pairs : List (Nat × Int × Int))
    (hits : List SearchHit) (heq : formatLoop ids metas pairs = some hits) :
    ∀ hit ∈ hits, ∃ p, p ∈ pairs ∧ p.2.2 < (ids.length : Int) ∧
      pyGet ids p.2.2 = some hit.chunk_id ∧
      pyGet metas p.2.2 = some hit.metadata ∧ hit.rank = p.1 + 1 := by
  induction pairs generalizing hits with
  | nil =>
    intro hit hmem
    simp only [formatLoop, Option.some.injEq] at heq
    subst heq
    cases hmem
  | cons p rest ih =>
    obtain ⟨i, s, idx⟩ := p
    intro hit hmem
    by_cases hlt : idx < (ids.length : Int)
    · cases hcid : pyGet ids idx with
      | none =>
        cases hmeta : pyGet metas idx <;>
          simp [formatLoop, hlt, hcid, hmeta] at heq
      | some cid =>
        cases hmeta : pyGet metas idx with
        | none => simp [formatLoop, hlt, hcid, hmeta] at heq
        | some cm =>
          simp only [formatLoop, if_pos hlt, hcid, hmeta] at heq
          obtain ⟨tl, htl, hcons⟩ := Option.map_eq_some'.1 heq
          subst hcons
          rcases List.mem_cons.1 hmem with rfl | hmem2
          · exact ⟨(i, s, idx), List.mem_cons_self _ _, hlt, hcid, hmeta, rfl⟩
          · obtain ⟨q, hq, hrest⟩ := ih tl htl hit hmem2
            exact ⟨q, List.mem_cons_of_mem _ hq, hrest⟩
    · simp only [formatLoop, if_neg hlt] at heq
      obtain ⟨q, hq, hrest⟩ := ih hits heq hit hmem
      exact ⟨q, List.mem_cons_of_mem _ hq, hrest⟩

/-- C3 (amended): the result-formatting loop of `search_index` enforces only
the *upper* bound on document indices returned by the scoring engine: pairs
with `idx >= corpus_size` are dropped (filtering them away does not change
the outcome), and every surfaced hit comes from a pair with
`idx < corpus_size` whose chunk id and metadata were obtained by Python
indexing at `idx` — which for a negative `idx` wraps around to a chunk
counted from the end instead of being dropped. -/
theorem C3_upper_bound_only (ids : List String)
    (metas : List (List (String × String))) (pairs : List (Nat × Int × Int)) :
    formatLoop ids metas pairs =
      formatLoop ids metas
        (pairs.filter fun p => p.2.2 < (ids.length : Int)) ∧
    ∀ hits, formatLoop ids metas pairs = some hits →
      ∀ hit ∈ hits, ∃ p, p ∈ pairs ∧ p.2.2 < (ids.length : Int) ∧
        pyGet ids p.2.2 = some hit.chunk_id ∧
        pyGet metas p.2.2 = some hit.metadata ∧ hit.rank = p.1 + 1 :=
  ⟨formatLoop_filter ids metas pairs,
    fun hits heq => formatLoop_hits ids metas pairs hits heq⟩

/-- Witness for C3 (amended), at a one-chunk collection and the pair list
`[(0, 3, 0), (1, 4, 5)]`: the out-of-range index 5 is dropped and the single
surfaced hit maps back through Python indexing at index 0. -/
theorem C3_upper_bound_only_witness :
    ∃ p, p ∈ [((0 : Nat), (3 : Int), (0 : Int)), (1, 4, 5)] ∧
      p.2.2 < (1 : Int) ∧ pyGet ["a"] p.2.2 = some "a" ∧
      pyGet [[("k", "v")]] p.2.2 = some [("k", "v")] ∧ (1 : Nat) = p.1 + 1 := by
  have h := (C3_upper_bound_only ["a"] [[("k", "v")]]
      [(0, 3, 0), (1, 4, 5)]).2
    [{ rank := 1, chunk_id := "a", score := 3, metadata := [("k", "v")] }]
    (by decide)
  exact h { rank := 1, chunk_id := "a", score := 3, metadata := [("k", "v")] }
    (by decide)

/-- Counterexample for C3 as stated: the scoring-engine index `-1` is not in
the range `0 <= idx < corpus_size = 2`, yet the formatting loop does not drop
it — the guard `idx < len(chunk_ids)` passes and Python's negative indexing
surfaces the *last* chunk (`"b"`) with its metadata. -/
theorem C3_counterexample :
    formatLoop ["a", "b"] [[("k", "v1")], [("k", "v2")]] [(0, 7, -1)] =
      some [{ rank := 1, chunk_id := "b", score := 7,
              metadata := [("k", "v2")] }] := by
  decide

/-- C4: for every corpus and every score assignment, the engine's `retrieve`
returns at most `k` results, each with a valid document index; and when `k`
is at least the corpus size it returns all documents of the corpus (one pair
per document) rather than failing. -/
theorem C4_retrieve_at_most_k (a : Artifact) (score : Nat → Int) (k : Nat) :
    (a.retrieve score k).length ≤ k ∧
    (∀ p ∈ a.retrieve score k, p.1 < a.corpusTokens.length) ∧
    (a.corpusTokens.length ≤ k →
      (a.retrieve score k).length = a.corpusTokens.length ∧
      ∀ i < a.corpusTokens.length, (i, score i) ∈ a.retrieve score k) := by
  refine ⟨?_, retrieve_mem_lt a score k, fun h => ⟨?_, retrieve_all a score k h⟩⟩
  · rw [retrieve_length]; exact min_le_left _ _
  · rw [retrieve_length]; exact min_eq_right h

/-- Witness for C4 at a two-document corpus and `k = 5`: all two documents
come back. -/
theorem C4_retrieve_at_most_k_witness :
    ((Artifact.mk [["x"], ["y"]]).retrieve (fun i => (i : Int)) 5).length = 2 ∧
    ((0 : Nat), (0 : Int)) ∈
      (Artifact.mk [["x"], ["y"]]).retrieve (fun i => (i : Int)) 5 := by
  have h := (C4_retrieve_at_most_k ⟨[["x"], ["y"]]⟩ (fun i => (i : Int)) 5).2.2
    (by decide)
  exact ⟨h.1, h.2 0 (by decide)⟩

/-- C5 (amended): `_load_index_from_disk` reports success exactly when both
the index file and the metadata file are present with the expected formats;
when only one of the two is present it reports the index absent. It performs
no mutual-consistency check between the two documents, so a mismatched
artifact/metadata pair still loads successfully (see the counterexample). -/
theorem C5_load_requires_both_files_only (st : BM25State) (filename : String) :
    (loadIndexFromDisk st filename).2 = true ↔
      (∃ a, st.fs (getIndexPath filename) = some (.idxFile a)) ∧
      (∃ m, st.fs (getMetadataPath filename) = some (.metaFile m)) := by
  unfold loadIndexFromDisk
  cases h1 : st.fs (getIndexPath filename) with
  | none => simp [h1]
  | some f1 =>
    cases h2 : st.fs (getMetadataPath filename) with
    | none => cases f1 <;> simp [h1, h2]
    | some f2 => cases f1 <;> cases f2 <;> simp [h1, h2]

/-- Witness for C5 (amended): on the disk-only state both files for `"doc2"`
are present, so the load reports success. -/
theorem C5_load_requires_both_files_only_witness :
    (loadIndexFromDisk diskState "doc2").2 = true :=
  (C5_load_requires_both_files_only diskState "doc2").mpr
    ⟨⟨sampleArtifact, by decide⟩,
      ⟨{ sampleMeta with filename := "doc2" }, by decide⟩⟩

/-- The metadata half of an inconsistent persisted pair: it announces two
chunks while the artifact next to it indexes a single document. -/
def badMeta : IndexMeta :=
  { filename := "bad", chunk_count := 2, chunk_ids := ["c1", "c2"],
    chunk_metadata := [[], []], created_at := "t", corpus_size := 2 }

/-- A state whose persisted artifact (corpus size 1) disagrees with its
persisted metadata (`corpus_size = chunk_count = 2`). -/
def inconsistentState : BM25State :=
  { indices := fun _ => none, metadata := fun _ => none,
    fs := mapSet
      (mapSet (fun _ => none) (getIndexPath "bad") (.idxFile ⟨[["x"]]⟩))
      (getMetadataPath "bad") (.metaFile badMeta) }

/-- Counterexample for C5 as stated: both files for `"bad"` are present but
mutually inconsistent (artifact corpus size 1, metadata `corpus_size` 2),
yet the load reports success instead of treating the state as index
absent. -/
theorem C5_counterexample :
    (loadIndexFromDisk inconsistentState "bad").2 = true ∧
    inconsistentState.fs (getIndexPath "bad") =
      some (.idxFile ⟨[["x"]]⟩) ∧
    inconsistentState.fs (getMetadataPath "bad") = some (.metaFile badMeta) ∧
    (Artifact.mk [["x"]]).corpusTokens.length ≠ badMeta.corpus_size := by
  decide

/-- The metadata document `create_index` builds at lines 99-106. -/
def mkMeta (chunks : List ChunkData) (filename createdAt : String) : IndexMeta :=
  { filename := filename
    chunk_count := chunks.length
    chunk_ids := chunks.map (·.id)
    chunk_metadata := chunks.map (·.metadata)
    created_at := createdAt
    corpus_size := (chunks.map (·.text)).length }

/-- The artifact `create_index` builds from the chunk texts. -/
def mkArtifact (chunks : List ChunkData) : Artifact :=
  { corpusTokens := (chunks.map (·.text)).map tokenize }

theorem create_builds (st : BM25State) (chunks : List ChunkData)
    (filename createdAt : String) (replaceExisting : Bool) (out : SaveOutcome)
    (hcond : ¬(¬(replaceExisting = true) ∧ (st.indices filename).isSome = true)) :
    create_index st chunks filename replaceExisting createdAt out =
      (saveIndexToDisk
        { st with
            indices := mapSet st.indices filename (mkArtifact chunks),
            metadata := mapSet st.metadata filename
              (mkMeta chunks filename createdAt) }
        filename (mkArtifact chunks) (mkMeta chunks filename createdAt) out,
       { status := "indexed", filename := filename, chunks := chunks.length }) := by
  unfold create_index
  rw [if_neg hcond]
  rfl

theorem formatLoop_isSome (ids : List String)
    (metas : List (List (String × String))) (pairs : List (Nat × Int × Int))
    (h : ∀ p ∈ pairs, 0 ≤ p.2.2 ∧ p.2.2 < (ids.length : Int) ∧
      p.2.2 < (metas.length : Int)) :
    ∃ hits, formatLoop ids metas pairs = some hits := by
  induction pairs with
  | nil => exact ⟨[], rfl⟩
  | cons p rest ih =>
    obtain ⟨i, s, idx⟩ := p
    obtain ⟨h0, h1, h2⟩ := h _ (List.mem_cons_self _ _)
    obtain ⟨tl, htl⟩ := ih fun q hq => h q (List.mem_cons_of_mem _ hq)
    have h0' : (0 : Int) ≤ idx := h0
    have h1' : idx < (ids.length : Int) := h1
    have h2' : idx < (metas.length : Int) := h2
    have hi1 : idx.toNat < ids.length := by omega
    have hi2 : idx.toNat < metas.length := by omega
    have hcid : pyGet ids idx = some (ids.get ⟨idx.toNat, hi1⟩) := by
      unfold pyGet
      rw [if_pos h0]
      exact List.get?_eq_get hi1
    have hcm : pyGet metas idx = some (metas.get ⟨idx.toNat, hi2⟩) := by
      unfold pyGet
      rw [if_pos h0]
      exact List.get?_eq_get hi2
    refine ⟨SearchHit.mk (i + 1) (ids.get ⟨idx.toNat, hi1⟩) s
        (metas.get ⟨idx.toNat, hi2⟩) :: tl, ?_⟩
    simp only [formatLoop, if_pos h1', hcid, hcm, htl, Option.map_some']

/-- C6: when the in-memory build succeeds (the create call takes the build
path, i.e. it is not the `replace_existing = false` no-op), a failure of the
durable save — at any point of `_save_index_to_disk`, whose exceptions are
caught and only logged — does not fail the operation: `create_index` still
returns the `"indexed"` status, the new artifact and metadata are installed
in memory, and the collection is immediately searchable (every subsequent
search returns a success outcome, never an error). -/
theorem C6_save_failure_nonfatal (st : BM25State) (chunks : List ChunkData)
    (filename createdAt : String) (out : SaveOutcome) (replaceExisting : Bool)
    (h : replaceExisting = true ∨ st.indices filename = none) :
    (create_index st chunks filename replaceExisting createdAt out).2.status
        = "indexed" ∧
    (create_index st chunks filename replaceExisting createdAt out).1.indices
        filename = some (mkArtifact chunks) ∧
    (create_index st chunks filename replaceExisting createdAt out).1.metadata
        filename =
      some { filename := filename, chunk_count := chunks.length,
             chunk_ids := chunks.map (·.id),
             chunk_metadata := chunks.map (·.metadata),
             created_at := createdAt, corpus_size := chunks.length } ∧
    ∀ query topK score, ∃ results,
      (search_index
          (create_index st chunks filename replaceExisting createdAt out).1
          query filename topK score).2 =
        .success query filename results results.length := by
  have hcond :
      ¬(¬(replaceExisting = true) ∧ (st.indices filename).isSome = true) := by
    rcases h with h | h
    · exact fun hc => hc.1 h
    · intro hc
      rw [h] at hc
      exact Bool.false_ne_true hc.2
  rw [create_builds st chunks filename createdAt replaceExisting out hcond]
  have hA : (saveIndexToDisk
      { st with
          indices := mapSet st.indices filename (mkArtifact chunks),
          metadata := mapSet st.metadata filename
            (mkMeta chunks filename createdAt) }
      filename (mkArtifact chunks) (mkMeta chunks filename createdAt)
      out).indices filename = some (mkArtifact chunks) := by
    rw [saveIndexToDisk_indices]
    exact mapSet_same _ _ _
  have hM : (saveIndexToDisk
      { st with
          indices := mapSet st.indices filename (mkArtifact chunks),
          metadata := mapSet st.metadata filename
            (mkMeta chunks filename createdAt) }
      filename (mkArtifact chunks) (mkMeta chunks filename createdAt)
      out).metadata filename = some (mkMeta chunks filename createdAt) := by
    rw [saveIndexToDisk_metadata]
    exact mapSet_same _ _ _
  refine ⟨rfl, hA, ?_, ?_⟩
  · rw [hM]
    simp [mkMeta]
  · intro query topK score
    have hmem : ∀ p ∈ ((((mkArtifact chunks).retrieve (score (tokenize query))
          topK).map fun q => (q.2, (q.1 : Int))).enum.map
            fun e => (e.1, e.2.1, e.2.2)),
        0 ≤ p.2.2 ∧
          p.2.2 < ((mkMeta chunks filename createdAt).chunk_ids.length : Int) ∧
          p.2.2 <
            ((mkMeta chunks filename createdAt).chunk_metadata.length : Int) := by
      intro p hp
      obtain ⟨e, he, rfl⟩ := List.mem_map.1 hp
      have he2 := List.snd_mem_of_mem_enum he
      obtain ⟨q, hq, heq⟩ := List.mem_map.1 he2
      have hqlt := retrieve_mem_lt (mkArtifact chunks) (score (tokenize query))
        topK q hq
      have he22 : e.2.2 = (q.1 : Int) := by rw [← heq]
      have hlen : (mkArtifact chunks).corpusTokens.length = chunks.length := by
        simp [mkArtifact]
      rw [hlen] at hqlt
      refine ⟨?_, ?_, ?_⟩
      · rw [show (e.1, e.2.1, e.2.2).2.2 = e.2.2 from rfl, he22]
        exact Int.natCast_nonneg q.1
      · rw [show (e.1, e.2.1, e.2.2).2.2 = e.2.2 from rfl, he22]
        simp only [mkMeta, List.length_map]
        exact_mod_cast hqlt
      · rw [show (e.1, e.2.1, e.2.2).2.2 = e.2.2 from rfl, he22]
        simp only [mkMeta, List.length_map]
        exact_mod_cast hqlt
    obtain ⟨hits, hfl⟩ := formatLoop_isSome _ _ _ hmem
    refine ⟨hits, ?_⟩
    unfold search_index
    simp only [hA, Option.isNone_some, Bool.false_eq_true, if_false, hM, hfl]

/-- Witness for C6: creating a collection in the empty manager while the
disk write fails entirely still reports `"indexed"`. -/
theorem C6_save_failure_nonfatal_witness :
    (create_index initState [⟨"c1", "hello world", []⟩] "doc6" false "t0"
        .failBeforeIndex).2.status = "indexed" :=
  (C6_save_failure_nonfatal initState [⟨"c1", "hello world", []⟩] "doc6" "t0"
    .failBeforeIndex false (Or.inr rfl)).1

theorem sanitize_eq_self (n : String)
    (h : ∀ c ∈ n.data, c ≠ '/' ∧ c ≠ '\\') : sanitize n = n := by
  unfold sanitize
  have heq : ∀ c ∈ n.data,
      (if c = '/' ∨ c = '\\' then '_' else c) = id c := by
    intro c hc
    rcases h c hc with ⟨hc1, hc2⟩
    simp [hc1, hc2]
  rw [List.map_congr_left heq, List.map_id]

theorem path_append_inj (p suf s1 s2 : String)
    (h : p ++ s1 ++ suf = p ++ s2 ++ suf) : s1 = s2 := by
  have hd := congrArg String.data h
  simp only [String.data_append] at hd
  have h2 := List.append_cancel_left (List.append_cancel_right hd)
  cases s1
  cases s2
  exact congrArg String.mk h2

/-- C7 (amended): the sanitization is injective on collection names free of
path separators — for two distinct such names the derived index paths and
metadata paths are distinct. It is not injective in general: a name
containing `/` or `\` collides with the name carrying `_` at those positions
(see the counterexample). -/
theorem C7_sanitize_injective_without_separators (n1 n2 : String)
    (h1 : ∀ c ∈ n1.data, c ≠ '/' ∧ c ≠ '\\')
    (h2 : ∀ c ∈ n2.data, c ≠ '/' ∧ c ≠ '\\') (hne : n1 ≠ n2) :
    getIndexPath n1 ≠ getIndexPath n2 ∧
    getMetadataPath n1 ≠ getMetadataPath n2 := by
  constructor
  · intro he
    apply hne
    unfold getIndexPath at he
    have hs := path_append_inj (storagePath ++ "/") ".bm25" _ _ he
    rwa [sanitize_eq_self n1 h1, sanitize_eq_self n2 h2] at hs
  · intro he
    apply hne
    unfold getMetadataPath at he
    have hs := path_append_inj (storagePath ++ "/") ".meta" _ _ he
    rwa [sanitize_eq_self n1 h1, sanitize_eq_self n2 h2] at hs

/-- Witness for C7 (amended) at the separator-free names `"a"` and `"b"`. -/
theorem C7_sanitize_injective_without_separators_witness :
    getIndexPath "a" ≠ getIndexPath "b" ∧
    getMetadataPath "a" ≠ getMetadataPath "b" :=
  C7_sanitize_injective_without_separators "a" "b" (by decide) (by decide)
    (by decide)

/-- Counterexample for C7 as stated: the distinct collection names `"a/b"`
and `"a_b"` sanitize to the same storage key, so both their index paths and
their metadata paths coincide — the two collections share storage files. -/
theorem C7_counterexample :
    "a/b" ≠ "a_b" ∧ getIndexPath "a/b" = getIndexPath "a_b" ∧
    getMetadataPath "a/b" = getMetadataPath "a_b" := by
  decide

/-- C8: create with an empty chunk list succeeds with the `"indexed"` status
and installs metadata with `corpus_size = 0`; a subsequent search on the
collection returns the empty result list with a success status, not an
error, for every query, `top_k`, and score assignment. -/
theorem C8_empty_create_searchable (st : BM25State)
    (filename createdAt query : String) (out : SaveOutcome) (topK : Nat)
    (score : List String → Nat → Int) :
    (create_index st [] filename true createdAt out).2.status = "indexed" ∧
    (create_index st [] filename true createdAt out).1.metadata filename =
      some (mkMeta [] filename createdAt) ∧
    (mkMeta [] filename createdAt).corpus_size = 0 ∧
    (search_index (create_index st [] filename true createdAt out).1 query
        filename topK score).2 = .success query filename [] 0 := by
  have hcond : ¬(¬(true = true) ∧ (st.indices filename).isSome = true) := by
    simp
  rw [create_builds st [] filename createdAt true out hcond]
  have hA : (saveIndexToDisk
      { st with
          indices := mapSet st.indices filename (mkArtifact []),
          metadata := mapSet st.metadata filename
            (mkMeta [] filename createdAt) }
      filename (mkArtifact []) (mkMeta [] filename createdAt)
      out).indices filename = some (mkArtifact []) := by
    rw [saveIndexToDisk_indices]
    exact mapSet_same _ _ _
  have hM : (saveIndexToDisk
      { st with
          indices := mapSet st.indices filename (mkArtifact []),
          metadata := mapSet st.metadata filename
            (mkMeta [] filename createdAt) }
      filename (mkArtifact []) (mkMeta [] filename createdAt)
      out).metadata filename = some (mkMeta [] filename createdAt) := by
    rw [saveIndexToDisk_metadata]
    exact mapSet_same _ _ _
  refine ⟨rfl, hM, rfl, ?_⟩
  unfold search_index
  simp only [hA, Option.isNone_some, Bool.false_eq_true, if_false, hM]
  simp [Artifact.retrieve, mkArtifact, formatLoop]

/-- Unfolded form of `delete_index`: the let-chain of conditional removals
written as one record. -/
theorem delete_index_eq (st : BM25State) (filename : String) :
    delete_index st filename =
      ({ indices :=
            if (st.indices filename).isSome then mapDel st.indices filename
            else st.indices,
          metadata :=
            if (st.metadata filename).isSome then mapDel st.metadata filename
            else st.metadata,
          fs :=
            (fun g =>
              if (g (getMetadataPath filename)).isSome then
                mapDel g (getMetadataPath filename)
              else g)
            ((fun g =>
              if (g (getIndexPath filename)).isSome then
                mapDel g (getIndexPath filename)
              else g) st.fs) },
        { status := "deleted", filename := filename }) := rfl

theorem condDel_none (f : String → Option α) (k : String) :
    (if (f k).isSome then mapDel f k else f) k = none := by
  by_cases h : (f k).isSome = true
  · rw [if_pos h]
    simp [mapDel]
  · rw [if_neg h]
    exact Option.not_isSome_iff_eq_none.1 h

theorem condDel_pres (f : String → Option α) (k x : String) (hx : f x = none) :
    (if (f k).isSome then mapDel f k else f) x = none := by
  by_cases h : (f k).isSome = true
  · rw [if_pos h]
    unfold mapDel
    by_cases hxk : x = k <;> simp [hxk, hx]
  · rw [if_neg h]
    exact hx

/-- The four observable pieces of per-collection state after a delete are
all cleared. -/
theorem delete_clears (st : BM25State) (filename : String) :
    (delete_index st filename).1.indices filename = none ∧
    (delete_index st filename).1.metadata filename = none ∧
    (delete_index st filename).1.fs (getIndexPath filename) = none ∧
    (delete_index st filename).1.fs (getMetadataPath filename) = none := by
  rw [delete_index_eq]
  refine ⟨condDel_none st.indices filename, condDel_none st.metadata filename,
    ?_, ?_⟩
  · exact condDel_pres _ _ _ (condDel_none st.fs (getIndexPath filename))
  · exact condDel_none _ _

/-- C9: `delete_index` is idempotent — it always reports `"deleted"`, on a
collection that exists neither in memory nor on disk it changes no state at
all, and running it twice leaves the system in exactly the state a single
run produces. -/
theorem C9_delete_idempotent (st : BM25State) (filename : String) :
    (delete_index st filename).2 =
      { status := "deleted", filename := filename } ∧
    (st.indices filename = none → st.metadata filename = none →
      st.fs (getIndexPath filename) = none →
      st.fs (getMetadataPath filename) = none →
      delete_index st filename =
        (st, { status := "deleted", filename := filename })) ∧
    delete_index (delete_index st filename).1 filename =
      delete_index st filename := by
  refine ⟨rfl, ?_, ?_⟩
  · intro h1 h2 h3 h4
    rw [delete_index_eq]
    simp only [h1, h2, Option.isSome_none, Bool.false_eq_true, if_false]
    simp only [h3, Option.isSome_none, Bool.false_eq_true, if_false]
    simp only [h4, Option.isSome_none, Bool.false_eq_true, if_false]
  · obtain ⟨hc1, hc2, hc3, hc4⟩ := delete_clears st filename
    rw [delete_index_eq (delete_index st filename).1 filename]
    simp only [hc1, hc2, Option.isSome_none, Bool.false_eq_true, if_false]
    simp only [hc3, Option.isSome_none, Bool.false_eq_true, if_false]
    simp only [hc4, Option.isSome_none, Bool.false_eq_true, if_false]
    rfl

/-- Witness for C9: deleting a collection the empty manager never created
succeeds and is a complete no-op. -/
theorem C9_delete_idempotent_witness :
    delete_index initState "ghost9" =
      (initState, { status := "deleted", filename := "ghost9" }) :=
  (C9_delete_idempotent initState "ghost9").2.1 rfl rfl rfl rfl

/-- The invariant of claim C10: a collection name has an in-memory index
handle exactly when it has in-memory metadata. -/
def aligned (st : BM25State) : Prop :=
  ∀ n, (st.indices n).isSome ↔ (st.metadata n).isSome

theorem search_index_state (st : BM25State) (query filename : String)
    (topK : Nat) (score : List String → Nat → Int) :
    (search_index st query filename topK score).1 =
      if (st.indices filename).isNone then (loadIndexFromDisk st filename).1
      else st := by
  unfold search_index
  split
  all_goals
    dsimp only
    split
    · rfl
    · split
      · rfl
      · split <;> rfl

theorem load_preserves_aligned (st : BM25State) (filename : String)
    (h : aligned st) : aligned (loadIndexFromDisk st filename).1 := by
  unfold loadIndexFromDisk
  cases h1 : st.fs (getIndexPath filename) with
  | none => exact h
  | some f1 =>
    cases h2 : st.fs (getMetadataPath filename) with
    | none => cases f1 <;> exact h
    | some f2 =>
      cases f1 with
      | metaFile m => cases f2 <;> exact h
      | idxFile a =>
        cases f2 with
        | idxFile a2 => exact h
        | metaFile m =>
          intro n
          by_cases hn : n = filename
          · simp [mapSet, hn]
          · simp only [mapSet, if_neg hn]
            exact h n

/-- C10: the manager's two in-memory maps stay aligned — if the set of names
with an in-memory index equals the set with in-memory metadata, then it
still does after any completed `create_index`, after any `search_index`
(including its lazy disk load), and after any `delete_index`. -/
theorem C10_maps_aligned (st : BM25State) (h : aligned st) :
    (∀ chunks filename replaceExisting createdAt out,
      aligned (create_index st chunks filename replaceExisting createdAt
        out).1) ∧
    (∀ query filename topK score,
      aligned (search_index st query filename topK score).1) ∧
    (∀ filename, aligned (delete_index st filename).1) := by
  refine ⟨?_, ?_, ?_⟩
  · intro chunks filename replaceExisting createdAt out
    by_cases hc : ¬(replaceExisting = true) ∧ (st.indices filename).isSome = true
    · unfold create_index
      rw [if_pos hc]
      exact h
    · rw [create_builds st chunks filename createdAt replaceExisting out hc]
      intro n
      rw [saveIndexToDisk_indices, saveIndexToDisk_metadata]
      by_cases hn : n = filename
      · simp [mapSet, hn]
      · simp only [mapSet, if_neg hn]
        exact h n
  · intro query filename topK score
    rw [search_index_state]
    by_cases hn : (st.indices filename).isNone = true
    · rw [if_pos hn]
      exact load_preserves_aligned st filename h
    · rw [if_neg hn]
      exact h
  · intro filename
    rw [delete_index_eq]
    intro n
    have hsame : (st.indices filename).isSome = (st.metadata filename).isSome := by
      by_cases hb : (st.indices filename).isSome = true
      · rw [hb, (h filename).1 hb]
      · rw [Bool.not_eq_true] at hb
        have hb2 : (st.metadata filename).isSome = false := by
          rw [← Bool.not_eq_true]
          intro hm
          rw [(h filename).2 hm] at hb
          simp at hb
        rw [hb, hb2]
    by_cases hb : (st.indices filename).isSome = true
    · rw [if_pos hb, if_pos (hsame ▸ hb)]
      unfold mapDel
      by_cases hn : n = filename
      · simp [hn]
      · simp only [if_neg hn]
        exact h n
    · rw [if_neg hb, if_neg (by rw [← hsame]; exact hb)]
      exact h n

/-- Witness for C10: the empty manager is aligned, and stays aligned after a
create. -/
theorem C10_maps_aligned_witness :
    aligned (create_index initState [⟨"c1", "text", []⟩] "w10" true "t"
      .ok).1 :=
  (C10_maps_aligned initState (fun _ => Iff.rfl)).1 [⟨"c1", "text", []⟩]
    "w10" true "t" .ok
